import Mathlib

/-!
# RESTY timer engine — shallow embedding and verification

This file embeds the phase/session scheduling engine of
`src/src-tauri/src/services/timer.rs` (types from
`src/src-tauri/src/models/mod.rs`) into Lean and proves the spec claims
about it.

Modelling conventions:
* Wall-clock instants (`chrono::DateTime<Utc>`) are `Int` seconds since an
  arbitrary epoch; `chrono` durations used by the engine are whole seconds.
  Each externally invoked command receives its `now` explicitly; the few
  repeated `Utc::now()` reads inside one command are modelled as the same
  instant.
* `u32` fields are `Nat`.  The engine's documented input ranges (minutes in
  `1..=120`, repeat in `1..=12`, extension of 5 minutes) keep all arithmetic
  far below `2^32`, so wrap-around never occurs and unbounded `Nat` is exact.
* Session ids (`Uuid::new_v4()`) are opaque fresh values: commands that may
  mint an id take it as an extra `Nat` argument.
* Side effects (event emission, persistence) are modelled as return values:
  `tick` returns the finished `Session` and a `Bool` saying whether the
  "show-break-reminder" signal was emitted; `skip` returns
  `Option (Session × Bool)` as in the source.
-/

namespace Resty

/-- `TimerPhase` from `models/mod.rs`. -/
inductive TimerPhase where
  | Work
  | Break
  | Idle
deriving DecidableEq, Repr

/-- `TimerState` (run state) from `models/mod.rs`. -/
inductive TimerState where
  | Running
  | Paused
  | Stopped
deriving DecidableEq, Repr

/-- `SessionType` from `models/mod.rs`. -/
inductive SessionType where
  | Work
  | Break
deriving DecidableEq, Repr

/-- Modelled from the spec: the `WorkSegment` struct declaration is not in
`src/` (the `models/mod.rs` snapshot predates segmentation), but §3 of the
spec and every use in `timer.rs` fix it as
`{work_minutes, break_minutes, repeat}` with `u32` fields. -/
structure WorkSegment where
  work_minutes : Nat
  break_minutes : Nat
  repeat_count : Nat
deriving DecidableEq, Repr

/-- `Session` record from `models/mod.rs` (`duration`/`planned_duration`
are `i64`, hence `Int`). -/
structure Session where
  id : Nat
  session_type : SessionType
  start_time : Int
  end_time : Int
  duration : Int
  planned_duration : Int
  is_skipped : Bool
  extended_seconds : Int
  notes : Option String
deriving DecidableEq, Repr

/-- `TimerInfo` snapshot as constructed by `TimerService::get_info`. -/
structure TimerInfo where
  phase : TimerPhase
  state : TimerState
  remaining_seconds : Nat
  total_seconds : Nat
  next_transition_time : Option Int
  next_break_time : Option Int
deriving DecidableEq, Repr

/-- `TimerServiceState` from `timer.rs` (the single mutable aggregate). -/
structure TimerServiceState where
  phase : TimerPhase
  state : TimerState
  remaining_seconds : Nat
  total_seconds : Nat
  work_duration : Nat
  break_duration : Nat
  base_work_duration : Nat
  base_break_duration : Nat
  flow_mode : Bool
  segmented_enabled : Bool
  segments : List WorkSegment
  segment_index : Nat
  segment_iteration : Nat
  phase_end_time : Option Int
  current_session_id : Option Nat
  current_session_start : Option Int
  auto_cycle : Bool
  suppress_breaks_until : Option Int
  paused_due_to_display_off : Bool
  paused_due_to_system_suspend : Bool
deriving DecidableEq, Repr

/-- `TimerServiceState::has_segments`. -/
def TimerServiceState.has_segments (s : TimerServiceState) : Bool :=
  s.segmented_enabled && !s.segments.isEmpty

/-- `TimerServiceState::apply_current_segment`. -/
def TimerServiceState.apply_current_segment (s : TimerServiceState) :
    TimerServiceState :=
  if s.has_segments then
    match s.segments.get? (min s.segment_index (s.segments.length - 1)) with
    | some seg =>
        { s with work_duration := max seg.work_minutes 1,
                 break_duration := max seg.break_minutes 1 }
    | none =>
        { s with work_duration := max s.base_work_duration 1,
                 break_duration := max s.base_break_duration 1 }
  else
    { s with work_duration := max s.base_work_duration 1,
             break_duration := max s.base_break_duration 1 }

/-- `TimerServiceState::reset_segment_progress`. -/
def TimerServiceState.reset_segment_progress (s : TimerServiceState) :
    TimerServiceState :=
  TimerServiceState.apply_current_segment
    { s with segment_index := 0, segment_iteration := 0 }

/-- `TimerServiceState::advance_segment_cycle`.  In the stay branch the
source only increments `segment_iteration` — the stored `segment_index`
is left as it is (the clamped `idx` is used solely to read the repeat
count and to compute the wrap). -/
def TimerServiceState.advance_segment_cycle (s : TimerServiceState) :
    TimerServiceState :=
  if s.has_segments then
    if s.segments.length = 0 then
      TimerServiceState.apply_current_segment
        { s with segment_index := 0, segment_iteration := 0 }
    else
      let idx := min s.segment_index (s.segments.length - 1)
      let rep := max ((s.segments.getD idx ⟨1, 1, 1⟩).repeat_count) 1
      if s.segment_iteration + 1 < rep then
        TimerServiceState.apply_current_segment
          { s with segment_iteration := s.segment_iteration + 1 }
      else
        TimerServiceState.apply_current_segment
          { s with segment_index := (idx + 1) % s.segments.length,
                   segment_iteration := 0 }
  else
    TimerServiceState.apply_current_segment
      { s with segment_index := 0, segment_iteration := 0 }

/-- `TimerServiceState::normalized_segment_index`. -/
def TimerServiceState.normalized_segment_index (s : TimerServiceState)
    (index : Nat) : Nat :=
  if s.segments.isEmpty then 0 else min index (s.segments.length - 1)

/-- `TimerServiceState::cycle_work_minutes`. -/
def TimerServiceState.cycle_work_minutes (s : TimerServiceState)
    (index : Nat) : Nat :=
  if s.has_segments && !s.segments.isEmpty then
    match s.segments.get? (s.normalized_segment_index index) with
    | some seg => max seg.work_minutes 1
    | none => max s.base_work_duration 1
  else
    max s.base_work_duration 1

/-- `TimerServiceState::cycle_break_minutes`. -/
def TimerServiceState.cycle_break_minutes (s : TimerServiceState)
    (index : Nat) : Nat :=
  if s.has_segments && !s.segments.isEmpty then
    match s.segments.get? (s.normalized_segment_index index) with
    | some seg => max seg.break_minutes 1
    | none => max s.base_break_duration 1
  else
    max s.base_break_duration 1

/-- `TimerServiceState::next_cycle_position`. -/
def TimerServiceState.next_cycle_position (s : TimerServiceState)
    (index : Nat) (iteration : Nat) : Nat × Nat :=
  if !s.has_segments || s.segments.isEmpty then (0, 0)
  else
    let idx := s.normalized_segment_index index
    let rep := max ((s.segments.getD idx ⟨1, 1, 1⟩).repeat_count) 1
    if iteration + 1 < rep then (idx, iteration + 1)
    else ((idx + 1) % s.segments.length, 0)

/-- The per-segment clamping closure inside
`TimerService::sanitize_segments`. -/
def sanitize_one (segment : WorkSegment) : WorkSegment :=
  { work_minutes :=
      if segment.work_minutes = 0 then 1
      else if segment.work_minutes > 120 then 120
      else segment.work_minutes
    break_minutes :=
      if segment.break_minutes = 0 then 1
      else if segment.break_minutes > 120 then 120
      else segment.break_minutes
    repeat_count :=
      if segment.repeat_count = 0 then 1
      else if segment.repeat_count > 12 then 12
      else segment.repeat_count }

/-- `TimerService::sanitize_segments`: clamp each field, then drop
zero-length segments. -/
def sanitize_segments (segments : List WorkSegment) : List WorkSegment :=
  (segments.map sanitize_one).filter
    fun seg => seg.work_minutes > 0 && seg.break_minutes > 0

/-- `TimerService::new` (the engine-state part: lock/app/db handles are
I/O glue outside the embedding). -/
def TimerService.new (work_duration break_duration : Nat)
    (flow_mode segmented_enabled : Bool) (segments : List WorkSegment) :
    TimerServiceState :=
  let sanitized := sanitize_segments segments
  TimerServiceState.reset_segment_progress
    { phase := TimerPhase.Idle
      state := TimerState.Stopped
      remaining_seconds := 0
      total_seconds := 0
      work_duration := work_duration
      break_duration := break_duration
      base_work_duration := work_duration
      base_break_duration := break_duration
      flow_mode := flow_mode
      segmented_enabled := segmented_enabled && !sanitized.isEmpty
      segments := sanitized
      segment_index := 0
      segment_iteration := 0
      phase_end_time := none
      current_session_id := none
      current_session_start := none
      auto_cycle := true
      suppress_breaks_until := none
      paused_due_to_display_off := false
      paused_due_to_system_suspend := false }

/-- `TimerService::create_session_record`; `fid` stands in for the fresh
`Uuid::new_v4()` minted when no session id is open. -/
def create_session_record (s : TimerServiceState) (now : Int)
    (is_skipped : Bool) (fid : Nat) : Session :=
  let start_time := s.current_session_start.getD now
  { id := s.current_session_id.getD fid
    session_type :=
      match s.phase with
      | TimerPhase.Work => SessionType.Work
      | TimerPhase.Break => SessionType.Break
      | TimerPhase.Idle => SessionType.Work
    start_time := start_time
    end_time := now
    duration := now - start_time
    planned_duration := (s.total_seconds : Int)
    is_skipped := is_skipped
    extended_seconds := 0
    notes := none }

/-- `TimerService::update_remaining_seconds`. -/
def update_remaining_seconds (s : TimerServiceState) (now : Int) :
    TimerServiceState :=
  match s.phase_end_time with
  | some end_time =>
      if now ≥ end_time then { s with remaining_seconds := 0 }
      else { s with remaining_seconds := (end_time - now).toNat }
  | none => s

/-- `TimerService::start_work`; `nid` is the fresh session uuid. -/
def start_work (s : TimerServiceState) (now : Int) (nid : Nat) :
    TimerServiceState :=
  let s := s.apply_current_segment
  let work_seconds := s.work_duration * 60
  { s with phase := TimerPhase.Work
           state := TimerState.Running
           total_seconds := work_seconds
           remaining_seconds := work_seconds
           phase_end_time := some (now + (work_seconds : Int))
           current_session_id := some nid
           current_session_start := some now
           paused_due_to_display_off := false }

/-- `TimerService::start_break`; `nid` is the fresh session uuid. -/
def start_break (s : TimerServiceState) (now : Int) (nid : Nat) :
    TimerServiceState :=
  let s := s.apply_current_segment
  let break_seconds := s.break_duration * 60
  { s with phase := TimerPhase.Break
           state := TimerState.Running
           total_seconds := break_seconds
           remaining_seconds := break_seconds
           phase_end_time := some (now + (break_seconds : Int))
           current_session_id := some nid
           current_session_start := some now
           paused_due_to_display_off := false }

/-- `TimerService::pause`. -/
def pause (s : TimerServiceState) (now : Int) : TimerServiceState :=
  if s.state = TimerState.Running then
    { update_remaining_seconds s now with
        state := TimerState.Paused, phase_end_time := none }
  else s

/-- `TimerService::resume`. -/
def resume (s : TimerServiceState) (now : Int) : TimerServiceState :=
  if s.state = TimerState.Paused then
    { s with state := TimerState.Running
             phase_end_time :=
               if s.remaining_seconds > 0 then
                 some (now + (s.remaining_seconds : Int))
               else some now
             paused_due_to_display_off := false
             paused_due_to_system_suspend := false }
  else s

/-- `TimerService::extend`. -/
def extend (s : TimerServiceState) (minutes : Nat) : TimerServiceState :=
  let additional_seconds := max minutes 1 * 60
  { s with remaining_seconds := s.remaining_seconds + additional_seconds
           total_seconds := s.total_seconds + additional_seconds
           phase_end_time :=
             s.phase_end_time.map (· + (additional_seconds : Int)) }

/-- `TimerService::stop`. -/
def stop (s : TimerServiceState) : TimerServiceState :=
  { s with phase := TimerPhase.Idle
           state := TimerState.Stopped
           remaining_seconds := 0
           total_seconds := 0
           phase_end_time := none
           current_session_id := none
           current_session_start := none
           paused_due_to_display_off := false
           paused_due_to_system_suspend := false }

/-- `TimerService::advance_segment_if_needed`. -/
def advance_segment_if_needed (s : TimerServiceState)
    (segmented_active : Bool) : TimerServiceState :=
  if segmented_active then s.advance_segment_cycle else s

/-- `TimerService::skip`.  Returns the new state and
`Option (Session, should_show_break_reminder)` as in the source; `fid` is
the fallback uuid for the captured record, `nid` the uuid for the newly
started phase. -/
def skip (s : TimerServiceState) (now : Int) (fid nid : Nat) :
    TimerServiceState × Option (Session × Bool) :=
  if s.phase = TimerPhase.Idle then (s, none)
  else
    let previous_phase := s.phase
    let session := create_session_record s now true fid
    let segmented_active := s.has_segments
    let s := stop s
    match previous_phase with
    | TimerPhase.Work => (start_break s now nid, some (session, true))
    | TimerPhase.Break =>
        (start_work (advance_segment_if_needed s segmented_active) now nid,
         some (session, false))
    | TimerPhase.Idle => (s, some (session, false))

/-- `TimerService::tick`.  Returns the new state, the finished session (if
any) and whether the "show-break-reminder" signal was emitted. -/
def tick (s : TimerServiceState) (now : Int) (fid nid : Nat) :
    TimerServiceState × Option Session × Bool :=
  if s.state ≠ TimerState.Running then (s, none, false)
  else
    let next_phase := s.phase
    let step :=
      match s.phase_end_time with
      | some end_time =>
          if now ≥ end_time then
            let s1 := { s with remaining_seconds := 0 }
            let session := create_session_record s1 now false fid
            ({ s1 with phase_end_time := none }, true, some session)
          else
            ({ s with remaining_seconds := (end_time - now).toNat },
             false, none)
      | none => (s, false, none)
    let s := step.1
    let timer_finished := step.2.1
    let session := step.2.2
    let flow_mode := s.flow_mode
    let segmented_active := s.has_segments
    let should_auto_cycle := timer_finished && s.auto_cycle
    let supp :=
      match s.suppress_breaks_until with
      | some u =>
          if now < u then (s, true)
          else ({ s with suppress_breaks_until := none }, false)
      | none => (s, false)
    let s := supp.1
    let suppress_breaks_active := supp.2
    if timer_finished && should_auto_cycle then
      match next_phase with
      | TimerPhase.Work =>
          if suppress_breaks_active || flow_mode then
            (start_work (advance_segment_if_needed s segmented_active) now nid,
             session, false)
          else
            (start_break s now nid, session, true)
      | TimerPhase.Break =>
          (start_work (advance_segment_if_needed s segmented_active) now nid,
           session, false)
      | TimerPhase.Idle => (s, session, false)
    else (s, session, false)

/-- `TimerService::handle_display_power_state`. -/
def handle_display_power_state (s : TimerServiceState) (display_on : Bool)
    (now : Int) : TimerServiceState :=
  if display_on then
    if s.state = TimerState.Paused && s.paused_due_to_display_off then
      resume { s with paused_due_to_display_off := false } now
    else { s with paused_due_to_display_off := false }
  else
    if s.state = TimerState.Running then
      pause { s with paused_due_to_display_off := true } now
    else s

/-- `TimerService::handle_system_suspend`. -/
def handle_system_suspend (s : TimerServiceState) (now : Int) :
    TimerServiceState :=
  if s.state = TimerState.Running then
    pause { s with paused_due_to_system_suspend := true } now
  else s

/-- `TimerService::handle_system_resume`. -/
def handle_system_resume (s : TimerServiceState) (now : Int) :
    TimerServiceState :=
  if s.state = TimerState.Paused && s.paused_due_to_system_suspend then
    resume { s with paused_due_to_system_suspend := false } now
  else { s with paused_due_to_system_suspend := false }

/-- `TimerService::update_timer_configuration`. -/
def update_timer_configuration (s : TimerServiceState)
    (work_duration break_duration : Nat) (segmented_enabled : Bool)
    (segments : List WorkSegment) : TimerServiceState :=
  let s := { s with base_work_duration := max work_duration 1
                    base_break_duration := max break_duration 1
                    segments := sanitize_segments segments }
  let s := { s with
               segmented_enabled := segmented_enabled && !s.segments.isEmpty }
  let s :=
    if !s.segmented_enabled then
      { s with segment_index := 0, segment_iteration := 0 }
    else if s.segment_index ≥ s.segments.length then
      { s with segment_index := 0, segment_iteration := 0 }
    else
      let rep := max ((s.segments.getD s.segment_index ⟨1, 1, 1⟩).repeat_count) 1
      if s.segment_iteration ≥ rep then { s with segment_iteration := 0 }
      else s
  s.apply_current_segment

/-- `TimerService::update_flow_mode`.  May trigger an internal `skip`
whose skipped-break session is persisted; that session is returned. -/
def update_flow_mode (s : TimerServiceState) (enabled : Bool) (now : Int)
    (fid nid : Nat) : TimerServiceState × Option Session :=
  if s.flow_mode = enabled then (s, none)
  else
    let s := { s with flow_mode := enabled }
    if enabled && s.phase = TimerPhase.Break then
      let r := skip s now fid nid
      (r.1, r.2.map Prod.fst)
    else (s, none)

/-- `TimerService::suppress_breaks_for_hours` (`hours` is `i64`). -/
def suppress_breaks_for_hours (s : TimerServiceState) (now : Int)
    (hours : Int) : TimerServiceState :=
  { s with suppress_breaks_until := some (now + max hours 1 * 3600) }

/-- `TimerService::suppress_breaks_until_tomorrow_morning`.  The local
"tomorrow 08:00" resolution is environment I/O; the resolved absolute
instant is passed in. -/
def suppress_breaks_until_tomorrow_morning (s : TimerServiceState)
    (until_utc : Int) : TimerServiceState :=
  { s with suppress_breaks_until := some until_utc }

/-- The `while candidate < allow_break_from` loop of
`TimerService::compute_next_break_time_from_state` (segmented branch).
Termination: both cycle lengths are clamped to at least one minute, so
every step moves `candidate` at least 120 seconds toward the bound. -/
def segment_ring_walk (s : TimerServiceState) (allow_break_from : Int)
    (candidate : Int) (idx iteration : Nat) : Int :=
  if _h : candidate < allow_break_from then
    let break_len : Int := (s.cycle_break_minutes idx * 60 : Nat)
    let next_position := s.next_cycle_position idx iteration
    let work_len : Int := (s.cycle_work_minutes next_position.1 * 60 : Nat)
    segment_ring_walk s allow_break_from (candidate + (break_len + work_len))
      next_position.1 next_position.2
  else candidate
termination_by (allow_break_from - candidate).toNat
decreasing_by
  have hb : 1 ≤ s.cycle_break_minutes idx := by
    unfold TimerServiceState.cycle_break_minutes
    split
    · split <;> omega
    · omega
  have hw : 1 ≤ s.cycle_work_minutes (s.next_cycle_position idx iteration).1 := by
    unfold TimerServiceState.cycle_work_minutes
    split
    · split <;> omega
    · omega
  omega

/-- `TimerService::compute_next_break_time_from_state` (read-only). -/
def compute_next_break_time_from_state (s : TimerServiceState) (now : Int) :
    Option Int :=
  if s.phase = TimerPhase.Idle then none
  else
    let allow_break_from :=
      match s.suppress_breaks_until with
      | some t => if t > now then t else now
      | none => now
    if !s.has_segments then
      let base_work_seconds : Int := (max s.base_work_duration 1 * 60 : Nat)
      let candidate :=
        match s.phase with
        | TimerPhase.Work =>
            s.phase_end_time.getD
              (now + (max s.remaining_seconds 1 : Nat))
        | TimerPhase.Break =>
            s.phase_end_time.getD
              (now + (max s.remaining_seconds 1 : Nat)) + base_work_seconds
        | TimerPhase.Idle => now
      let candidate :=
        if candidate < allow_break_from then
          let diff_seconds := allow_break_from - candidate
          let cycles :=
            Int.tdiv diff_seconds base_work_seconds +
              (if Int.tmod diff_seconds base_work_seconds ≠ 0 then 1 else 0)
          candidate + cycles * base_work_seconds
        else candidate
      some candidate
    else
      let start :=
        match s.phase with
        | TimerPhase.Work =>
            (s.phase_end_time.getD
               (now + (max s.remaining_seconds 1 : Nat)),
             s.segment_index, s.segment_iteration)
        | TimerPhase.Break =>
            let break_end :=
              s.phase_end_time.getD
                (now + (max s.remaining_seconds 1 : Nat))
            let next_position :=
              s.next_cycle_position s.segment_index s.segment_iteration
            (break_end + (s.cycle_work_minutes next_position.1 * 60 : Nat),
             next_position.1, next_position.2)
        | TimerPhase.Idle => (now, 0, 0)
      some (segment_ring_walk s allow_break_from start.1 start.2.1 start.2.2)

/-- `TimerService::get_info`. -/
def get_info (s : TimerServiceState) (now : Int) : TimerInfo :=
  { phase := s.phase
    state := s.state
    remaining_seconds := s.remaining_seconds
    total_seconds := s.total_seconds
    next_transition_time := s.phase_end_time
    next_break_time :=
      if s.flow_mode then none
      else compute_next_break_time_from_state s now }

/-!
## Command sequences

For the whole-engine invariant we close the engine commands under an
inductive `Command` type.  Every command that reads the wall clock carries
its `now`; the `Chronological` predicate states that the carried instants
are nondecreasing (wall-clock time moves forward between commands).
-/

/-- One externally invokable engine command, with the wall-clock instant it
is invoked at and any fresh session ids it may mint. -/
inductive Command where
  | start_work (now : Int) (nid : Nat)
  | start_break (now : Int) (nid : Nat)
  | pause (now : Int)
  | resume (now : Int)
  | skip (now : Int) (fid nid : Nat)
  | extend (minutes : Nat)
  | stop
  | tick (now : Int) (fid nid : Nat)
  | update_timer_configuration (work_duration break_duration : Nat)
      (segmented_enabled : Bool) (segments : List WorkSegment)
  | update_flow_mode (enabled : Bool) (now : Int) (fid nid : Nat)
  | suppress_breaks_for_hours (now : Int) (hours : Int)
  | suppress_breaks_until_tomorrow_morning (until_utc : Int)
  | handle_display_power_state (display_on : Bool) (now : Int)
  | handle_system_suspend (now : Int)
  | handle_system_resume (now : Int)

/-- State transition of one command (outputs discarded). -/
def execCommand (s : TimerServiceState) : Command → TimerServiceState
  | Command.start_work now nid => start_work s now nid
  | Command.start_break now nid => start_break s now nid
  | Command.pause now => pause s now
  | Command.resume now => resume s now
  | Command.skip now fid nid => (skip s now fid nid).1
  | Command.extend minutes => extend s minutes
  | Command.stop => stop s
  | Command.tick now fid nid => (tick s now fid nid).1
  | Command.update_timer_configuration w b se segs =>
      update_timer_configuration s w b se segs
  | Command.update_flow_mode enabled now fid nid =>
      (update_flow_mode s enabled now fid nid).1
  | Command.suppress_breaks_for_hours now hours =>
      suppress_breaks_for_hours s now hours
  | Command.suppress_breaks_until_tomorrow_morning u =>
      suppress_breaks_until_tomorrow_morning s u
  | Command.handle_display_power_state d now =>
      handle_display_power_state s d now
  | Command.handle_system_suspend now => handle_system_suspend s now
  | Command.handle_system_resume now => handle_system_resume s now

/-- Wall-clock instant carried by a command, if it reads the clock. -/
def commandTime : Command → Option Int
  | Command.start_work now _ => some now
  | Command.start_break now _ => some now
  | Command.pause now => some now
  | Command.resume now => some now
  | Command.skip now _ _ => some now
  | Command.extend _ => none
  | Command.stop => none
  | Command.tick now _ _ => some now
  | Command.update_timer_configuration _ _ _ _ => none
  | Command.update_flow_mode _ now _ _ => some now
  | Command.suppress_breaks_for_hours now _ => some now
  | Command.suppress_breaks_until_tomorrow_morning _ => none
  | Command.handle_display_power_state _ now => some now
  | Command.handle_system_suspend now => some now
  | Command.handle_system_resume now => some now

/-- Run a command list left to right. -/
def run (s : TimerServiceState) (cs : List Command) : TimerServiceState :=
  cs.foldl execCommand s

/-- The commands' clock reads are nondecreasing starting from `t`. -/
def Chronological (t : Int) : List Command → Bool
  | [] => true
  | c :: cs =>
      match commandTime c with
      | some n => decide (t ≤ n) && Chronological n cs
      | none => Chronological t cs

/-- The suppression test made by `tick` (`Utc::now() < until`). -/
def suppress_active (s : TimerServiceState) (now : Int) : Bool :=
  match s.suppress_breaks_until with
  | some u => decide (now < u)
  | none => false

/-- Invariant tying the cached countdown to the deadline: `t` is the
instant of the most recent clock-reading command. -/
def Inv (s : TimerServiceState) (t : Int) : Prop :=
  s.remaining_seconds ≤ s.total_seconds ∧
  ∀ e, s.phase_end_time = some e → e ≤ t + (s.total_seconds : Int)

/-!
## Spec-side definitions for the next-break-time claim

These three definitions follow the words of the specification (§4.4), to be
compared with `compute_next_break_time_from_state` above, which is
translated from the source.
-/

/-- Spec §4.4: `allow_from = suppress_breaks_until` if still in the
future, else `now`. -/
def specAllowFrom (s : TimerServiceState) (now : Int) : Int :=
  match s.suppress_breaks_until with
  | some t => if t > now then t else now
  | none => now

/-- Spec §4.4: one base work length, in seconds. -/
def specBaseWorkLen (s : TimerServiceState) : Int :=
  ((max s.base_work_duration 1) * 60 : Nat)

/-- Spec §4.4 (no segmentation): the first candidate is the current
phase's end time (Work) or end-of-break-plus-one-work-length (Break). -/
def specFirstCandidate (s : TimerServiceState) (e : Int) : Int :=
  if s.phase = TimerPhase.Work then e else e + specBaseWorkLen s

/-!
## Concrete states for witnesses and counterexamples
-/

/-- Freshly constructed engine: base 25/5 minutes, no flow, no segments. -/
def exampleIdle : TimerServiceState := TimerService.new 25 5 false false []

/-- The engine right after `start_work` at instant 0 (deadline 1500). -/
def exampleWork : TimerServiceState := start_work exampleIdle 0 1

/-- A single-segment plan whose segment repeats twice. -/
def segPlanC4 : List WorkSegment := ⟨25, 5, 2⟩ :: []

/-- Segmented flow-mode engine in Work at instant 0 (deadline 1500). -/
def exampleFlowSeg : TimerServiceState :=
  start_work (TimerService.new 25 5 true true segPlanC4) 0 1

/-- Two-segment plan: second segment has repeat count 1. -/
def segsC5 : List WorkSegment := ⟨50, 10, 2⟩ :: ⟨25, 5, 1⟩ :: []

/-- Segmented engine whose cursor sits on segment 1 at iteration 5. -/
def exampleCursor15 : TimerServiceState :=
  { TimerService.new 25 5 false true segsC5 with
      segment_index := 1, segment_iteration := 5 }

/-- Segmented engine in Break at instant 0 with the cursor (0, 0). -/
def exampleBreakSeg : TimerServiceState :=
  start_break (TimerService.new 25 5 false true segsC5) 0 1

/-- Idle engine remembering a system-suspend pause cause. -/
def exampleSuspendFlag : TimerServiceState :=
  { exampleIdle with paused_due_to_system_suspend := true }

/-- Work at instant 0 with an expired-by-50 suppression window. -/
def exampleStaleSuppress : TimerServiceState :=
  { exampleWork with suppress_breaks_until := some 10 }

/-- Work at instant 0 with a suppression window reaching to 5000. -/
def exampleSuppress5000 : TimerServiceState :=
  { exampleWork with suppress_breaks_until := some 5000 }

/-- A chronological command script exercising every kind of command. -/
def exampleScript : List Command :=
  Command.start_work 0 1 ::
  Command.tick 10 2 3 ::
  Command.extend 5 ::
  Command.pause 20 ::
  Command.resume 30 ::
  Command.handle_display_power_state false 40 ::
  Command.handle_display_power_state true 50 ::
  Command.handle_system_suspend 60 ::
  Command.handle_system_resume 70 ::
  Command.suppress_breaks_for_hours 80 2 ::
  Command.update_timer_configuration 30 10 true segsC5 ::
  Command.tick 1600 4 5 ::
  Command.skip 1700 6 7 ::
  Command.update_flow_mode true 1800 8 9 ::
  Command.suppress_breaks_until_tomorrow_morning 90000 ::
  Command.stop :: []

/-!
## Structural lemmas shared between the claim theorems
-/

/-- A state with `has_segments` has a non-empty segment list. -/
theorem has_segments_nonempty (s : TimerServiceState)
    (h : s.has_segments = true) : s.segments.isEmpty = false := by
  unfold TimerServiceState.has_segments at h
  cases hne : s.segments.isEmpty
  · rfl
  · simp [hne] at h

/-- `apply_current_segment` only rewrites the two duration fields. -/
theorem apply_current_segment_spec (s : TimerServiceState) :
    ∃ w b, s.apply_current_segment =
      { s with work_duration := w, break_duration := b } := by
  unfold TimerServiceState.apply_current_segment
  split
  · split
    · exact ⟨_, _, rfl⟩
    · exact ⟨_, _, rfl⟩
  · exact ⟨_, _, rfl⟩

/-- The work duration installed by `apply_current_segment` is
`cycle_work_minutes` at the current cursor index. -/
theorem apply_current_segment_work_duration (s : TimerServiceState) :
    s.apply_current_segment.work_duration =
      s.cycle_work_minutes s.segment_index := by
  unfold TimerServiceState.apply_current_segment
    TimerServiceState.cycle_work_minutes
    TimerServiceState.normalized_segment_index
  cases hseg : s.has_segments with
  | false => simp [hseg]
  | true =>
      have hne := has_segments_nonempty s hseg
      simp only [hseg, hne, Bool.true_and, Bool.not_false, if_true,
        Bool.false_eq_true, if_false]
      cases hget : s.segments.get?
          (min s.segment_index (s.segments.length - 1)) <;> simp [hget]

/-- Symmetric statement for the break duration. -/
theorem apply_current_segment_break_duration (s : TimerServiceState) :
    s.apply_current_segment.break_duration =
      s.cycle_break_minutes s.segment_index := by
  unfold TimerServiceState.apply_current_segment
    TimerServiceState.cycle_break_minutes
    TimerServiceState.normalized_segment_index
  cases hseg : s.has_segments with
  | false => simp [hseg]
  | true =>
      have hne := has_segments_nonempty s hseg
      simp only [hseg, hne, Bool.true_and, Bool.not_false, if_true,
        Bool.false_eq_true, if_false]
      cases hget : s.segments.get?
          (min s.segment_index (s.segments.length - 1)) <;> simp [hget]

/-- `advance_segment_cycle` only rewrites the duration fields and the
cursor. -/
theorem advance_segment_cycle_spec (s : TimerServiceState) :
    ∃ w b i j, s.advance_segment_cycle =
      { s with work_duration := w, break_duration := b,
               segment_index := i, segment_iteration := j } := by
  unfold TimerServiceState.advance_segment_cycle
  cases hseg : s.has_segments with
  | false =>
      simp only [hseg, Bool.false_eq_true, if_false]
      obtain ⟨w, b, h⟩ :=
        apply_current_segment_spec
          { s with segment_index := 0, segment_iteration := 0 }
      exact ⟨w, b, _, _, h⟩
  | true =>
      simp only [hseg, if_true]
      split
      · obtain ⟨w, b, h⟩ :=
          apply_current_segment_spec
            { s with segment_index := 0, segment_iteration := 0 }
        exact ⟨w, b, _, _, h⟩
      · split
        · obtain ⟨w, b, h⟩ :=
            apply_current_segment_spec
              { s with segment_iteration := s.segment_iteration + 1 }
          exact ⟨w, b, _, _, h⟩
        · obtain ⟨w, b, h⟩ :=
            apply_current_segment_spec
              { s with segment_index :=
                         (min s.segment_index (s.segments.length - 1) + 1) %
                           s.segments.length,
                       segment_iteration := 0 }
          exact ⟨w, b, _, _, h⟩

/-- With the cursor index in range (the documented state invariant for
segmented states), or without active segments, the cursor image of
`advance_segment_cycle` is `next_cycle_position`.  At an out-of-range
index the two genuinely differ: the stay branch of the source keeps the
raw `segment_index` while `next_cycle_position` normalizes it. -/
theorem advance_segment_cycle_cursor (s : TimerServiceState)
    (h : s.segment_index < s.segments.length ∨ s.has_segments = false) :
    (s.advance_segment_cycle.segment_index,
     s.advance_segment_cycle.segment_iteration) =
      s.next_cycle_position s.segment_index s.segment_iteration := by
  unfold TimerServiceState.advance_segment_cycle
    TimerServiceState.next_cycle_position
    TimerServiceState.normalized_segment_index
  cases hseg : s.has_segments with
  | false =>
      simp only [hseg, Bool.false_eq_true, if_false, Bool.not_false,
        Bool.true_or, if_true]
      obtain ⟨w, b, happly⟩ :=
        apply_current_segment_spec
          { s with segment_index := 0, segment_iteration := 0 }
      rw [happly]
  | true =>
      have hidx : s.segment_index < s.segments.length := by
        rcases h with h | h
        · exact h
        · rw [hseg] at h; cases h
      have hne := has_segments_nonempty s hseg
      have hlen : s.segments.length ≠ 0 := by omega
      have hmin : min s.segment_index (s.segments.length - 1) =
          s.segment_index := by omega
      simp only [hseg, hne, Bool.not_true, Bool.false_or, Bool.false_eq_true,
        if_false, if_true, hlen, hmin]
      split
      · obtain ⟨w, b, happly⟩ :=
          apply_current_segment_spec
            { s with segment_iteration := s.segment_iteration + 1 }
        rw [happly]
      · obtain ⟨w, b, happly⟩ :=
          apply_current_segment_spec
            { s with segment_index :=
                       (s.segment_index + 1) % s.segments.length,
                     segment_iteration := 0 }
        rw [happly]

/-!
## Claim C10
-/

/-- C10: `sanitize_segments` returns a list of exactly the length of its
input (the zero-length filter never drops a segment, since clamping has
already raised every zero field to 1), and every output segment satisfies
`1 ≤ work_minutes ≤ 120`, `1 ≤ break_minutes ≤ 120`, `1 ≤ repeat ≤ 12`. -/
theorem C10_sanitize_segments_bounds (segments : List WorkSegment) :
    (sanitize_segments segments).length = segments.length ∧
    ∀ seg ∈ sanitize_segments segments,
      1 ≤ seg.work_minutes ∧ seg.work_minutes ≤ 120 ∧
      1 ≤ seg.break_minutes ∧ seg.break_minutes ≤ 120 ∧
      1 ≤ seg.repeat_count ∧ seg.repeat_count ≤ 12 := by
  have hone : ∀ x : WorkSegment,
      1 ≤ (sanitize_one x).work_minutes ∧ (sanitize_one x).work_minutes ≤ 120 ∧
      1 ≤ (sanitize_one x).break_minutes ∧ (sanitize_one x).break_minutes ≤ 120 ∧
      1 ≤ (sanitize_one x).repeat_count ∧ (sanitize_one x).repeat_count ≤ 12 := by
    intro x
    unfold sanitize_one
    refine ⟨?_, ?_, ?_, ?_, ?_, ?_⟩ <;>
      (dsimp only; split <;> (try split) <;> omega)
  have hfilter : (segments.map sanitize_one).filter
      (fun seg => seg.work_minutes > 0 && seg.break_minutes > 0) =
      segments.map sanitize_one := by
    apply List.filter_eq_self.mpr
    intro a ha
    obtain ⟨x, _, hx⟩ := List.mem_map.mp ha
    subst hx
    have := hone x
    simp only [Bool.and_eq_true, decide_eq_true_eq]
    omega
  constructor
  · rw [sanitize_segments, hfilter, List.length_map]
  · intro seg hseg
    rw [sanitize_segments, hfilter] at hseg
    obtain ⟨x, _, hx⟩ := List.mem_map.mp hseg
    subst hx
    exact hone x

/-- Full characterization of `start_work` as a record update: the
installed duration is the current cycle's work length. -/
theorem start_work_spec (s : TimerServiceState) (now : Int) (nid : Nat) :
    start_work s now nid =
      { s with phase := TimerPhase.Work
               state := TimerState.Running
               work_duration := s.cycle_work_minutes s.segment_index
               break_duration := s.cycle_break_minutes s.segment_index
               total_seconds := s.cycle_work_minutes s.segment_index * 60
               remaining_seconds := s.cycle_work_minutes s.segment_index * 60
               phase_end_time :=
                 some (now + (s.cycle_work_minutes s.segment_index * 60 : Nat))
               current_session_id := some nid
               current_session_start := some now
               paused_due_to_display_off := false } := by
  obtain ⟨w, b, happly⟩ := apply_current_segment_spec s
  have hw := apply_current_segment_work_duration s
  have hb := apply_current_segment_break_duration s
  rw [happly] at hw hb
  simp only [] at hw hb
  subst hw hb
  simp [start_work, happly]

/-- Full characterization of `start_break` as a record update. -/
theorem start_break_spec (s : TimerServiceState) (now : Int) (nid : Nat) :
    start_break s now nid =
      { s with phase := TimerPhase.Break
               state := TimerState.Running
               work_duration := s.cycle_work_minutes s.segment_index
               break_duration := s.cycle_break_minutes s.segment_index
               total_seconds := s.cycle_break_minutes s.segment_index * 60
               remaining_seconds := s.cycle_break_minutes s.segment_index * 60
               phase_end_time :=
                 some (now + (s.cycle_break_minutes s.segment_index * 60 : Nat))
               current_session_id := some nid
               current_session_start := some now
               paused_due_to_display_off := false } := by
  obtain ⟨w, b, happly⟩ := apply_current_segment_spec s
  have hw := apply_current_segment_work_duration s
  have hb := apply_current_segment_break_duration s
  rw [happly] at hw hb
  simp only [] at hw hb
  subst hw hb
  simp [start_break, happly]

/-- Witness for C10: the two-segment list is preserved whole and its first
output segment is within bounds. -/
theorem C10_sanitize_segments_bounds_witness :
    (sanitize_segments segsC5).length = segsC5.length ∧
    (1 ≤ ((sanitize_segments segsC5).getD 0 ⟨0, 0, 0⟩).work_minutes ∧
     ((sanitize_segments segsC5).getD 0 ⟨0, 0, 0⟩).work_minutes ≤ 120 ∧
     1 ≤ ((sanitize_segments segsC5).getD 0 ⟨0, 0, 0⟩).break_minutes ∧
     ((sanitize_segments segsC5).getD 0 ⟨0, 0, 0⟩).break_minutes ≤ 120 ∧
     1 ≤ ((sanitize_segments segsC5).getD 0 ⟨0, 0, 0⟩).repeat_count ∧
     ((sanitize_segments segsC5).getD 0 ⟨0, 0, 0⟩).repeat_count ≤ 12) :=
  ⟨(C10_sanitize_segments_bounds segsC5).1,
   (C10_sanitize_segments_bounds segsC5).2 _ (by decide)⟩

/-!
## Claim C2
-/

/-- C2: `skip` is a no-op returning `none` on Idle; otherwise it returns
the session captured from the pre-skip state marked skipped, and starts
the opposite phase — skipped Work starts Break with the reminder flag,
skipped Break advances the segment cursor (when segments are active) and
starts Work without the reminder.  The cursor-advance equation is stated
for cursor indices in range of the segment list, the invariant §3 of the
spec documents for segmented states (at an out-of-range index the
source's stay branch keeps the raw index, which `next_cycle_position`
would normalize). -/
theorem C2_skip_behaviour (s : TimerServiceState) (now : Int) (fid nid : Nat) :
    (s.phase = TimerPhase.Idle → skip s now fid nid = (s, none)) ∧
    (create_session_record s now true fid).is_skipped = true ∧
    (s.phase = TimerPhase.Work →
      (skip s now fid nid).2 =
        some (create_session_record s now true fid, true) ∧
      (skip s now fid nid).1.phase = TimerPhase.Break ∧
      (skip s now fid nid).1.state = TimerState.Running) ∧
    (s.phase = TimerPhase.Break →
      (skip s now fid nid).2 =
        some (create_session_record s now true fid, false) ∧
      (skip s now fid nid).1.phase = TimerPhase.Work ∧
      (skip s now fid nid).1.state = TimerState.Running ∧
      (s.has_segments = false →
        ((skip s now fid nid).1.segment_index,
         (skip s now fid nid).1.segment_iteration) =
          (s.segment_index, s.segment_iteration)) ∧
      (s.has_segments = true → s.segment_index < s.segments.length →
        ((skip s now fid nid).1.segment_index,
         (skip s now fid nid).1.segment_iteration) =
          s.next_cycle_position s.segment_index s.segment_iteration)) := by
  refine ⟨?_, rfl, ?_, ?_⟩
  · intro hphase
    simp [skip, hphase]
  · intro hphase
    obtain ⟨w, b, happly⟩ := apply_current_segment_spec (stop s)
    simp [skip, hphase, start_break, happly]
  · intro hphase
    have hidle : ¬ s.phase = TimerPhase.Idle := by rw [hphase]; intro h; cases h
    obtain ⟨w, b, happly⟩ :=
      apply_current_segment_spec
        (advance_segment_if_needed (stop s) s.has_segments)
    refine ⟨?_, ?_, ?_, ?_, ?_⟩
    · simp [skip, hphase, hidle, start_work, happly]
    · simp [skip, hphase, hidle, start_work, happly]
    · simp [skip, hphase, hidle, start_work, happly]
    · intro hseg
      have hcursor :
          ((advance_segment_if_needed (stop s) s.has_segments).segment_index,
           (advance_segment_if_needed (stop s) s.has_segments).segment_iteration) =
            (s.segment_index, s.segment_iteration) := by
        simp [advance_segment_if_needed, hseg, stop]
      simp [skip, hphase, hidle, start_work, happly, hcursor]
    · intro hseg hidx
      have hcursor :
          ((advance_segment_if_needed (stop s) s.has_segments).segment_index,
           (advance_segment_if_needed (stop s) s.has_segments).segment_iteration) =
            s.next_cycle_position s.segment_index s.segment_iteration := by
        have h := advance_segment_cycle_cursor (stop s) (Or.inl hidx)
        have hnp : (stop s).next_cycle_position (stop s).segment_index
            (stop s).segment_iteration =
            s.next_cycle_position s.segment_index s.segment_iteration := by
          simp [TimerServiceState.next_cycle_position,
            TimerServiceState.has_segments,
            TimerServiceState.normalized_segment_index, stop]
        simp only [advance_segment_if_needed, hseg, if_true]
        rw [h, hnp]
      simp [skip, hphase, hidle, start_work, happly, hcursor]

/-- Witness for C2: a concrete Work-phase skip (reminder fired, Break
started) and a concrete in-range segmented Break-phase skip whose cursor
advances to the next cycle position. -/
theorem C2_skip_behaviour_witness :
    ((skip exampleWork 0 7 8).2 =
      some (create_session_record exampleWork 0 true 7, true) ∧
     (skip exampleWork 0 7 8).1.phase = TimerPhase.Break ∧
     (skip exampleWork 0 7 8).1.state = TimerState.Running) ∧
    ((skip exampleBreakSeg 0 9 10).1.segment_index,
     (skip exampleBreakSeg 0 9 10).1.segment_iteration) =
      exampleBreakSeg.next_cycle_position exampleBreakSeg.segment_index
        exampleBreakSeg.segment_iteration :=
  ⟨(C2_skip_behaviour exampleWork 0 7 8).2.2.1 (by decide),
   ((C2_skip_behaviour exampleBreakSeg 0 9 10).2.2.2 (by decide)).2.2.2.2
     (by decide) (by decide)⟩

/-!
## Claim C1
-/

/-- C1: when a Running Work phase reaches its deadline under `auto_cycle`,
an active suppression window or flow mode chains straight into another
Work phase with no break-reminder signal; otherwise a Break phase starts
and the reminder fires.  An expired `suppress_breaks_until` is cleared by
the tick and counts as inactive. -/
theorem C1_work_finish_suppression (s : TimerServiceState) (now e : Int)
    (fid nid : Nat) (hrun : s.state = TimerState.Running)
    (hphase : s.phase = TimerPhase.Work) (hauto : s.auto_cycle = true)
    (he : s.phase_end_time = some e) (hfin : e ≤ now) :
    (suppress_active s now = true ∨ s.flow_mode = true →
      (tick s now fid nid).1.phase = TimerPhase.Work ∧
      (tick s now fid nid).1.state = TimerState.Running ∧
      (tick s now fid nid).2.2 = false) ∧
    (suppress_active s now = false → s.flow_mode = false →
      (tick s now fid nid).1.phase = TimerPhase.Break ∧
      (tick s now fid nid).1.state = TimerState.Running ∧
      (tick s now fid nid).2.2 = true) ∧
    (∀ u, s.suppress_breaks_until = some u → u ≤ now →
      (tick s now fid nid).1.suppress_breaks_until = none) := by
  have hge : now ≥ e := hfin
  have hadv : ∀ (x : TimerServiceState) (b : Bool),
      (advance_segment_if_needed x b).suppress_breaks_until =
        x.suppress_breaks_until := by
    intro x b
    cases b
    · rfl
    · obtain ⟨w, bb, i, j, h⟩ := advance_segment_cycle_spec x
      simp [advance_segment_if_needed, h]
  refine ⟨?_, ?_, ?_⟩
  · intro hsf
    cases hsup : s.suppress_breaks_until with
    | none =>
        have hflow : s.flow_mode = true := by
          rcases hsf with hc | hc
          · simp [suppress_active, hsup] at hc
          · exact hc
        simp [tick, hrun, he, hge, hsup, hphase, hauto, hflow, start_work_spec]
    | some u =>
        by_cases hu : now < u
        · simp [tick, hrun, he, hge, hsup, hphase, hauto, hu, start_work_spec]
        · have hflow : s.flow_mode = true := by
            rcases hsf with hc | hc
            · simp [suppress_active, hsup, hu] at hc
            · exact hc
          simp [tick, hrun, he, hge, hsup, hphase, hauto, hu, hflow,
            start_work_spec]
  · intro hsa hflow
    cases hsup : s.suppress_breaks_until with
    | none =>
        simp [tick, hrun, he, hge, hsup, hphase, hauto, hflow, start_break_spec]
    | some u =>
        have hu : ¬ now < u := by
          simp only [suppress_active, hsup, decide_eq_false_iff_not] at hsa
          exact hsa
        simp [tick, hrun, he, hge, hsup, hphase, hauto, hu, hflow,
          start_break_spec]
  · intro u hu hule
    have hnl : ¬ now < u := by omega
    cases hflow : s.flow_mode with
    | true =>
        simp [tick, hrun, he, hge, hu, hphase, hauto, hnl, hflow,
          start_work_spec, hadv]
    | false =>
        simp [tick, hrun, he, hge, hu, hphase, hauto, hnl, hflow,
          start_break_spec]

/-- Witness for C1: flow-mode chaining at a concrete state (Work at 0,
deadline 1500, flow mode on, ticked at 1500). -/
theorem C1_work_finish_suppression_witness :
    (tick exampleFlowSeg 1500 2 3).1.phase = TimerPhase.Work ∧
    (tick exampleFlowSeg 1500 2 3).1.state = TimerState.Running ∧
    (tick exampleFlowSeg 1500 2 3).2.2 = false :=
  (C1_work_finish_suppression exampleFlowSeg 1500 1500 2 3 (by decide)
    (by decide) (by decide) (by decide) (by decide)).1 (Or.inr (by decide))

/-!
## Claim C8
-/

/-- C8 as stated is false: a not-yet-finished tick also lazily clears an
expired `suppress_breaks_until`, so the result is not merely the input
with `remaining_seconds` refreshed.  Concretely: Work at 0, deadline 1500,
expired suppression instant 10, ticked at 50. -/
theorem C8_counterexample :
    (tick exampleStaleSuppress 50 2 3).1 ≠
      { exampleStaleSuppress with remaining_seconds := 1450 } := by decide

/-- C8 (amended): a tick of a Running state strictly before its deadline
only refreshes `remaining_seconds` to the seconds left and drops an
expired suppression instant; everything else — phase, run state, deadline,
segment cursor, session identity — is untouched, no session is returned
and no reminder is emitted. -/
theorem C8_tick_before_deadline (s : TimerServiceState) (now e : Int)
    (fid nid : Nat) (hrun : s.state = TimerState.Running)
    (he : s.phase_end_time = some e) (hlt : now < e) :
    tick s now fid nid =
      ({ s with remaining_seconds := (e - now).toNat,
                suppress_breaks_until :=
                  s.suppress_breaks_until.filter fun u => decide (now < u) },
       none, false) := by
  have hnot : ¬ now ≥ e := not_le.mpr hlt
  cases hsup : s.suppress_breaks_until with
  | none => simp [tick, hrun, he, hnot, hsup, Option.filter]
  | some u =>
      by_cases hu : now < u
      · simp [tick, hrun, he, hnot, hsup, hu, Option.filter]
      · simp [tick, hrun, he, hnot, hsup, hu, Option.filter]

/-- Witness for the amended C8 at the concrete post-`start_work` state. -/
theorem C8_tick_before_deadline_witness :
    exampleWork.state = TimerState.Running ∧
    tick exampleWork 10 2 3 =
      ({ exampleWork with
           remaining_seconds := ((1500 : Int) - 10).toNat,
           suppress_breaks_until :=
             exampleWork.suppress_breaks_until.filter fun u =>
               decide ((10 : Int) < u) },
       none, false) :=
  ⟨by decide,
   C8_tick_before_deadline exampleWork 10 1500 2 3 (by decide) (by decide)
     (by decide)⟩

/-!
## Claim C4
-/

/-- `next_cycle_position` only reads the segment plan fields. -/
theorem next_cycle_position_congr (a b : TimerServiceState)
    (hseg : a.segments = b.segments)
    (hen : a.segmented_enabled = b.segmented_enabled) (i j : Nat) :
    a.next_cycle_position i j = b.next_cycle_position i j := by
  unfold TimerServiceState.next_cycle_position TimerServiceState.has_segments
    TimerServiceState.normalized_segment_index
  rw [hseg, hen]

/-- Cursor image of `advance_segment_if_needed`, for states whose cursor
index is in range (or without active segments). -/
theorem advance_if_needed_cursor (x : TimerServiceState) (b : Bool)
    (h : x.segment_index < x.segments.length ∨ x.has_segments = false) :
    ((advance_segment_if_needed x b).segment_index,
     (advance_segment_if_needed x b).segment_iteration) =
      if b then x.next_cycle_position x.segment_index x.segment_iteration
      else (x.segment_index, x.segment_iteration) := by
  cases b
  · simp [advance_segment_if_needed]
  · simp [advance_segment_if_needed, advance_segment_cycle_cursor x h]

/-- C4 as stated is false: a Work completion that chains under flow mode
(or an active suppression) does advance the segment cursor.  Concretely:
single-segment plan with repeat 2, flow mode on, Work finishing at 1500
moves the cursor from (0, 0) to (0, 1). -/
theorem C4_counterexample :
    exampleFlowSeg.phase = TimerPhase.Work ∧
    exampleFlowSeg.segment_index = 0 ∧ exampleFlowSeg.segment_iteration = 0 ∧
    ¬ ((tick exampleFlowSeg 1500 2 3).1.segment_index = 0 ∧
       (tick exampleFlowSeg 1500 2 3).1.segment_iteration = 0) := by decide

/-- C4 (amended): a Work completion that transitions into Break (no
suppression, no flow mode), or that does not auto-cycle, leaves the
segment cursor unchanged; a suppressed/flow-mode Work completion and a
Break completion advance it — to the next cycle position when segments
are active and the cursor index is in range (the invariant spec §3
documents; at an out-of-range index the source's stay branch keeps the
raw index, which `next_cycle_position` would normalize), and not at all
when segments are inactive. -/
theorem C4_cursor_on_completion (s : TimerServiceState) (now e : Int)
    (fid nid : Nat) (hrun : s.state = TimerState.Running)
    (he : s.phase_end_time = some e) (hfin : e ≤ now) :
    (s.phase = TimerPhase.Work → suppress_active s now = false →
      s.flow_mode = false →
      (tick s now fid nid).1.segment_index = s.segment_index ∧
      (tick s now fid nid).1.segment_iteration = s.segment_iteration) ∧
    (s.auto_cycle = false →
      (tick s now fid nid).1.segment_index = s.segment_index ∧
      (tick s now fid nid).1.segment_iteration = s.segment_iteration) ∧
    (s.phase = TimerPhase.Work → s.auto_cycle = true →
      suppress_active s now = true ∨ s.flow_mode = true →
      (s.has_segments = false →
        ((tick s now fid nid).1.segment_index,
         (tick s now fid nid).1.segment_iteration) =
          (s.segment_index, s.segment_iteration)) ∧
      (s.has_segments = true → s.segment_index < s.segments.length →
        ((tick s now fid nid).1.segment_index,
         (tick s now fid nid).1.segment_iteration) =
          s.next_cycle_position s.segment_index s.segment_iteration)) ∧
    (s.phase = TimerPhase.Break → s.auto_cycle = true →
      (s.has_segments = false →
        ((tick s now fid nid).1.segment_index,
         (tick s now fid nid).1.segment_iteration) =
          (s.segment_index, s.segment_iteration)) ∧
      (s.has_segments = true → s.segment_index < s.segments.length →
        ((tick s now fid nid).1.segment_index,
         (tick s now fid nid).1.segment_iteration) =
          s.next_cycle_position s.segment_index s.segment_iteration)) := by
  have hge : now ≥ e := hfin
  refine ⟨?_, ?_, ?_, ?_⟩
  · intro hphase hsa hflow
    cases hauto : s.auto_cycle with
    | false =>
        cases hsup : s.suppress_breaks_until with
        | none => simp [tick, hrun, he, hge, hsup, hauto]
        | some u =>
            by_cases hu : now < u
            · simp [tick, hrun, he, hge, hsup, hu, hauto]
            · simp [tick, hrun, he, hge, hsup, hu, hauto]
    | true =>
        cases hsup : s.suppress_breaks_until with
        | none =>
            simp [tick, hrun, he, hge, hsup, hauto, hphase, hflow,
              start_break_spec]
        | some u =>
            have hu : ¬ now < u := by
              simp only [suppress_active, hsup, decide_eq_false_iff_not] at hsa
              exact hsa
            simp [tick, hrun, he, hge, hsup, hu, hauto, hphase, hflow,
              start_break_spec]
  · intro hauto
    cases hsup : s.suppress_breaks_until with
    | none => simp [tick, hrun, he, hge, hsup, hauto]
    | some u =>
        by_cases hu : now < u
        · simp [tick, hrun, he, hge, hsup, hu, hauto]
        · simp [tick, hrun, he, hge, hsup, hu, hauto]
  · intro hphase hauto hsf
    cases hsup : s.suppress_breaks_until with
    | none =>
        have hflow : s.flow_mode = true := by
          rcases hsf with hc | hc
          · simp [suppress_active, hsup] at hc
          · exact hc
        refine ⟨fun hseg => ?_, fun hseg hidx => ?_⟩
        · have hseg' := hseg
          simp only [TimerServiceState.has_segments] at hseg'
          simp [tick, hrun, he, hge, hsup, hphase, hauto, hflow, start_work_spec,
            advance_if_needed_cursor, hseg',
            TimerServiceState.has_segments,
            TimerServiceState.next_cycle_position,
            TimerServiceState.normalized_segment_index]
        · have hseg' := hseg
          simp only [TimerServiceState.has_segments] at hseg'
          simp [tick, hrun, he, hge, hsup, hphase, hauto, hflow, start_work_spec,
            advance_if_needed_cursor, hseg', hidx,
            TimerServiceState.has_segments,
            TimerServiceState.next_cycle_position,
            TimerServiceState.normalized_segment_index]
    | some u =>
        by_cases hu : now < u
        · refine ⟨fun hseg => ?_, fun hseg hidx => ?_⟩
          · have hseg' := hseg
            simp only [TimerServiceState.has_segments] at hseg'
            simp [tick, hrun, he, hge, hsup, hu, hphase, hauto, start_work_spec,
              advance_if_needed_cursor, hseg',
              TimerServiceState.has_segments,
              TimerServiceState.next_cycle_position,
              TimerServiceState.normalized_segment_index]
          · have hseg' := hseg
            simp only [TimerServiceState.has_segments] at hseg'
            simp [tick, hrun, he, hge, hsup, hu, hphase, hauto, start_work_spec,
              advance_if_needed_cursor, hseg', hidx,
              TimerServiceState.has_segments,
              TimerServiceState.next_cycle_position,
              TimerServiceState.normalized_segment_index]
        · have hflow : s.flow_mode = true := by
            rcases hsf with hc | hc
            · simp [suppress_active, hsup, hu] at hc
            · exact hc
          refine ⟨fun hseg => ?_, fun hseg hidx => ?_⟩
          · have hseg' := hseg
            simp only [TimerServiceState.has_segments] at hseg'
            simp [tick, hrun, he, hge, hsup, hu, hphase, hauto, hflow, start_work_spec,
              advance_if_needed_cursor, hseg',
              TimerServiceState.has_segments,
              TimerServiceState.next_cycle_position,
              TimerServiceState.normalized_segment_index]
          · have hseg' := hseg
            simp only [TimerServiceState.has_segments] at hseg'
            simp [tick, hrun, he, hge, hsup, hu, hphase, hauto, hflow, start_work_spec,
              advance_if_needed_cursor, hseg', hidx,
              TimerServiceState.has_segments,
              TimerServiceState.next_cycle_position,
              TimerServiceState.normalized_segment_index]
  · intro hphase hauto
    cases hsup : s.suppress_breaks_until with
    | none =>
        refine ⟨fun hseg => ?_, fun hseg hidx => ?_⟩
        · have hseg' := hseg
          simp only [TimerServiceState.has_segments] at hseg'
          simp [tick, hrun, he, hge, hsup, hphase, hauto, start_work_spec,
            advance_if_needed_cursor, hseg',
            TimerServiceState.has_segments,
            TimerServiceState.next_cycle_position,
            TimerServiceState.normalized_segment_index]
        · have hseg' := hseg
          simp only [TimerServiceState.has_segments] at hseg'
          simp [tick, hrun, he, hge, hsup, hphase, hauto, start_work_spec,
            advance_if_needed_cursor, hseg', hidx,
            TimerServiceState.has_segments,
            TimerServiceState.next_cycle_position,
            TimerServiceState.normalized_segment_index]
    | some u =>
        by_cases hu : now < u
        · refine ⟨fun hseg => ?_, fun hseg hidx => ?_⟩
          · have hseg' := hseg
            simp only [TimerServiceState.has_segments] at hseg'
            simp [tick, hrun, he, hge, hsup, hu, hphase, hauto, start_work_spec,
              advance_if_needed_cursor, hseg',
              TimerServiceState.has_segments,
              TimerServiceState.next_cycle_position,
              TimerServiceState.normalized_segment_index]
          · have hseg' := hseg
            simp only [TimerServiceState.has_segments] at hseg'
            simp [tick, hrun, he, hge, hsup, hu, hphase, hauto, start_work_spec,
              advance_if_needed_cursor, hseg', hidx,
              TimerServiceState.has_segments,
              TimerServiceState.next_cycle_position,
              TimerServiceState.normalized_segment_index]
        · refine ⟨fun hseg => ?_, fun hseg hidx => ?_⟩
          · have hseg' := hseg
            simp only [TimerServiceState.has_segments] at hseg'
            simp [tick, hrun, he, hge, hsup, hu, hphase, hauto, start_work_spec,
              advance_if_needed_cursor, hseg',
              TimerServiceState.has_segments,
              TimerServiceState.next_cycle_position,
              TimerServiceState.normalized_segment_index]
          · have hseg' := hseg
            simp only [TimerServiceState.has_segments] at hseg'
            simp [tick, hrun, he, hge, hsup, hu, hphase, hauto, start_work_spec,
              advance_if_needed_cursor, hseg', hidx,
              TimerServiceState.has_segments,
              TimerServiceState.next_cycle_position,
              TimerServiceState.normalized_segment_index]

/-- Witness for the amended C4: a plain (unsuppressed, non-flow) Work
completion leaves the cursor untouched. -/
theorem C4_cursor_on_completion_witness :
    (tick exampleWork 1500 2 3).1.segment_index = exampleWork.segment_index ∧
    (tick exampleWork 1500 2 3).1.segment_iteration =
      exampleWork.segment_iteration :=
  (C4_cursor_on_completion exampleWork 1500 1500 2 3 (by decide) (by decide)
    (by decide)).1 (by decide) (by decide) (by decide)

/-!
## Claim C5
-/

/-- Cursor/segments projections of `apply_current_segment`. -/
theorem apply_current_segment_segment_index (s : TimerServiceState) :
    s.apply_current_segment.segment_index = s.segment_index := by
  obtain ⟨w, b, h⟩ := apply_current_segment_spec s
  rw [h]

theorem apply_current_segment_segment_iteration (s : TimerServiceState) :
    s.apply_current_segment.segment_iteration = s.segment_iteration := by
  obtain ⟨w, b, h⟩ := apply_current_segment_spec s
  rw [h]

theorem apply_current_segment_segments (s : TimerServiceState) :
    s.apply_current_segment.segments = s.segments := by
  obtain ⟨w, b, h⟩ := apply_current_segment_spec s
  rw [h]

/-- C5 as stated is false: with the index in range but the iteration at or
past the (shrunk) repeat count, only the iteration is reset — the index is
kept, so the cursor is (index, 0), not (0, 0).  Concretely: cursor (1, 5)
against a list whose segment 1 has repeat 1 yields cursor (1, 0). -/
theorem C5_counterexample :
    exampleCursor15.segment_index = 1 ∧
    exampleCursor15.segment_iteration = 5 ∧
    exampleCursor15.segment_index < (sanitize_segments segsC5).length ∧
    exampleCursor15.segment_iteration ≥
      max ((sanitize_segments segsC5).getD 1 ⟨1, 1, 1⟩).repeat_count 1 ∧
    ¬ ((update_timer_configuration exampleCursor15 25 5 true
          segsC5).segment_index = 0 ∧
       (update_timer_configuration exampleCursor15 25 5 true
          segsC5).segment_iteration = 0) := by decide

/-- C5 (amended): `update_timer_configuration` with segmentation enabled
and a non-empty sanitized list resets the cursor to (0,0) when the index
is out of range for the new list; when the index is in range it is kept,
and the iteration is reset to 0 exactly when it reached the (possibly
shrunk) repeat count.  In all cases the resulting cursor indexes into the
new list, so no out-of-bounds access can follow. -/
theorem C5_update_configuration_cursor (s : TimerServiceState)
    (w b : Nat) (segs : List WorkSegment)
    (hne : (sanitize_segments segs).isEmpty = false) :
    (s.segment_index ≥ (sanitize_segments segs).length →
      (update_timer_configuration s w b true segs).segment_index = 0 ∧
      (update_timer_configuration s w b true segs).segment_iteration = 0) ∧
    (s.segment_index < (sanitize_segments segs).length →
      (update_timer_configuration s w b true segs).segment_index =
        s.segment_index ∧
      (s.segment_iteration ≥
          max ((sanitize_segments segs).getD s.segment_index
            ⟨1, 1, 1⟩).repeat_count 1 →
        (update_timer_configuration s w b true segs).segment_iteration = 0) ∧
      (s.segment_iteration <
          max ((sanitize_segments segs).getD s.segment_index
            ⟨1, 1, 1⟩).repeat_count 1 →
        (update_timer_configuration s w b true segs).segment_iteration =
          s.segment_iteration)) ∧
    (update_timer_configuration s w b true segs).segment_index <
      (update_timer_configuration s w b true segs).segments.length := by
  have hlen : (sanitize_segments segs).length ≠ 0 := by
    cases hs : sanitize_segments segs
    · rw [hs] at hne; simp at hne
    · simp
  by_cases hidx : s.segment_index ≥ (sanitize_segments segs).length
  · refine ⟨fun _ => ?_, fun hlt => absurd hlt (by omega), ?_⟩
    · constructor <;>
        simp [update_timer_configuration, hne, hidx,
          apply_current_segment_segment_index,
          apply_current_segment_segment_iteration]
    · simp [update_timer_configuration, hne, hidx,
        apply_current_segment_segment_index, apply_current_segment_segments]
      omega
  · have hlt : s.segment_index < (sanitize_segments segs).length := by omega
    by_cases hit : s.segment_iteration ≥
        max ((sanitize_segments segs).getD s.segment_index
          ⟨1, 1, 1⟩).repeat_count 1
    · have hcond :
          ((sanitize_segments segs)[s.segment_index]?.getD
            ⟨1, 1, 1⟩).repeat_count ≤ s.segment_iteration ∧
          1 ≤ s.segment_iteration := by
        rw [← List.getD_eq_getElem?_getD]
        omega
      refine ⟨fun hge => absurd hge (by omega),
        fun _ => ⟨?_, fun _ => ?_, fun hc => absurd hc (by omega)⟩, ?_⟩
      · simp [update_timer_configuration, hne, hidx, hcond,
          apply_current_segment_segment_index]
      · simp [update_timer_configuration, hne, hidx, hcond,
          apply_current_segment_segment_iteration]
      · simp [update_timer_configuration, hne, hidx, hcond,
          apply_current_segment_segment_index,
          apply_current_segment_segments]
        omega
    · have hncond :
          ¬ (((sanitize_segments segs)[s.segment_index]?.getD
                ⟨1, 1, 1⟩).repeat_count ≤ s.segment_iteration ∧
             1 ≤ s.segment_iteration) := by
        rw [← List.getD_eq_getElem?_getD]
        omega
      refine ⟨fun hge => absurd hge (by omega),
        fun _ => ⟨?_, fun hc => absurd hc (by omega), fun _ => ?_⟩, ?_⟩
      · simp [update_timer_configuration, hne, hidx, hncond,
          apply_current_segment_segment_index]
      · simp [update_timer_configuration, hne, hidx, hncond,
          apply_current_segment_segment_iteration]
      · simp [update_timer_configuration, hne, hidx, hncond,
          apply_current_segment_segment_index,
          apply_current_segment_segments]
        omega

/-- Witness for the amended C5 at the concrete (1, 5) cursor. -/
theorem C5_update_configuration_cursor_witness :
    (update_timer_configuration exampleCursor15 25 5 true
        segsC5).segment_index = exampleCursor15.segment_index ∧
    (exampleCursor15.segment_iteration ≥
        max ((sanitize_segments segsC5).getD exampleCursor15.segment_index
          ⟨1, 1, 1⟩).repeat_count 1 →
      (update_timer_configuration exampleCursor15 25 5 true
          segsC5).segment_iteration = 0) ∧
    (exampleCursor15.segment_iteration <
        max ((sanitize_segments segsC5).getD exampleCursor15.segment_index
          ⟨1, 1, 1⟩).repeat_count 1 →
      (update_timer_configuration exampleCursor15 25 5 true
          segsC5).segment_iteration = exampleCursor15.segment_iteration) :=
  (C5_update_configuration_cursor exampleCursor15 25 5 segsC5
    (by decide)).2.1 (by decide)

/-!
## Claim C6
-/

/-- C6 as stated is false: `start_work` clears only
`paused_due_to_display_off`; `paused_due_to_system_suspend` is left as it
was.  Concretely, starting work with the suspend flag set keeps it set. -/
theorem C6_counterexample :
    exampleSuspendFlag.paused_due_to_system_suspend = true ∧
    (start_work exampleSuspendFlag 0 1).paused_due_to_system_suspend ≠
      false := by decide

/-- C6 (amended): after `start_work`, the phase is Work, the run state is
Running, `remaining_seconds = total_seconds` equal the current segment's
(or base) work duration in seconds, the deadline is `now` plus that
duration, a fresh session id and start are installed, and
`paused_due_to_display_off` is cleared — but
`paused_due_to_system_suspend` is left unchanged. -/
theorem C6_start_work_fields (s : TimerServiceState) (now : Int)
    (nid : Nat) :
    (start_work s now nid).phase = TimerPhase.Work ∧
    (start_work s now nid).state = TimerState.Running ∧
    (start_work s now nid).total_seconds =
      s.cycle_work_minutes s.segment_index * 60 ∧
    (start_work s now nid).remaining_seconds =
      (start_work s now nid).total_seconds ∧
    (start_work s now nid).phase_end_time =
      some (now + ((start_work s now nid).total_seconds : Int)) ∧
    (start_work s now nid).current_session_id = some nid ∧
    (start_work s now nid).current_session_start = some now ∧
    (start_work s now nid).paused_due_to_display_off = false ∧
    (start_work s now nid).paused_due_to_system_suspend =
      s.paused_due_to_system_suspend := by
  simp [start_work_spec]

/-!
## Claim C7
-/

/-- C7 as stated is false: `pause` recomputes `remaining_seconds` from the
deadline, so when the cached value is stale (here 1500 cached, 1490 left
at the pause instant) a pause-resume pair with no time in between changes
`remaining_seconds`. -/
theorem C7_counterexample :
    exampleWork.remaining_seconds = 1500 ∧
    (resume (pause exampleWork 10) 10).remaining_seconds ≠
      exampleWork.remaining_seconds := by decide

/-- C7 (amended): pausing a Running state freezes
`remaining_seconds` to the time left to the deadline (clamped at 0) and
clears the deadline; resuming at any instant `t'` restores Running, keeps
the frozen remaining time and sets the new deadline to `t'` plus it (the
pause duration itself never shortens the phase).  When the cached
`remaining_seconds` was current at the pause instant, pause-then-resume
with no elapsed time leaves it unchanged. -/
theorem C7_pause_resume_deadline (s : TimerServiceState) (t e : Int)
    (hrun : s.state = TimerState.Running)
    (he : s.phase_end_time = some e) :
    (pause s t).phase_end_time = none ∧
    (pause s t).state = TimerState.Paused ∧
    ((pause s t).remaining_seconds : Int) = max (e - t) 0 ∧
    (∀ t', (resume (pause s t) t').state = TimerState.Running ∧
      (resume (pause s t) t').remaining_seconds =
        (pause s t).remaining_seconds ∧
      (resume (pause s t) t').phase_end_time =
        some (t' + ((pause s t).remaining_seconds : Int))) ∧
    ((s.remaining_seconds : Int) = max (e - t) 0 →
      (resume (pause s t) t).remaining_seconds = s.remaining_seconds) := by
  by_cases hte : t ≥ e
  · have hmax : max (e - t) 0 = 0 := by omega
    refine ⟨?_, ?_, ?_, ?_, ?_⟩
    · simp [pause, hrun, update_remaining_seconds, he, hte]
    · simp [pause, hrun, update_remaining_seconds, he, hte]
    · simp [pause, hrun, update_remaining_seconds, he, hte, hmax]
    · intro t'
      refine ⟨?_, ?_, ?_⟩ <;>
        simp [pause, hrun, update_remaining_seconds, he, hte, resume]
    · intro hfresh
      have hzero : s.remaining_seconds = 0 := by omega
      simp [pause, hrun, update_remaining_seconds, he, hte, resume, hzero]
  · have hpos : (0 : Int) < e - t := by omega
    have htn : ((e - t).toNat : Int) = e - t := by omega
    have hmax : max (e - t) 0 = e - t := by omega
    have hpos' : 0 < (e - t).toNat := by omega
    refine ⟨?_, ?_, ?_, ?_, ?_⟩
    · simp [pause, hrun, update_remaining_seconds, he, hte]
    · simp [pause, hrun, update_remaining_seconds, he, hte]
    · simp [pause, hrun, update_remaining_seconds, he, hte, htn, hmax]
    · intro t'
      refine ⟨?_, ?_, ?_⟩ <;>
        simp [pause, hrun, update_remaining_seconds, he, hte, resume, hpos']
    · intro hfresh
      have heq : s.remaining_seconds = (e - t).toNat := by omega
      simp [pause, hrun, update_remaining_seconds, he, hte, resume, heq]

/-- Witness for the amended C7 at the post-`start_work` state, paused at
instant 10. -/
theorem C7_pause_resume_deadline_witness :
    (pause exampleWork 10).phase_end_time = none ∧
    (pause exampleWork 10).state = TimerState.Paused ∧
    ((pause exampleWork 10).remaining_seconds : Int) =
      max ((1500 : Int) - 10) 0 ∧
    (∀ t', (resume (pause exampleWork 10) t').state = TimerState.Running ∧
      (resume (pause exampleWork 10) t').remaining_seconds =
        (pause exampleWork 10).remaining_seconds ∧
      (resume (pause exampleWork 10) t').phase_end_time =
        some (t' + ((pause exampleWork 10).remaining_seconds : Int))) ∧
    ((exampleWork.remaining_seconds : Int) = max ((1500 : Int) - 10) 0 →
      (resume (pause exampleWork 10) 10).remaining_seconds =
        exampleWork.remaining_seconds) :=
  C7_pause_resume_deadline exampleWork 10 1500 (by decide) (by decide)

/-!
## Claim C3
-/

/-- Correctness of the `i64` ceiling-division idiom
`d / W + (if d % W ≠ 0 then 1 else 0)` (Rust `/`/`%` truncate; on the
positive operands used here they agree with Lean's `tdiv`/`tmod`): the
result is the least number of whole `W`-increments covering `d`. -/
theorem ceil_cycles_spec (d W : Int) (hd : 0 < d) (hW : 0 < W) :
    0 ≤ d.tdiv W + (if d.tmod W ≠ 0 then 1 else 0) ∧
    d ≤ (d.tdiv W + (if d.tmod W ≠ 0 then 1 else 0)) * W ∧
    ∀ j : Int, 0 ≤ j → j < d.tdiv W + (if d.tmod W ≠ 0 then 1 else 0) →
      j * W < d := by
  have htd : d.tdiv W = d / W := Int.tdiv_eq_ediv (by omega) (by omega)
  have htm : d.tmod W = d % W := Int.tmod_eq_emod (by omega) (by omega)
  have hdm : W * (d / W) + d % W = d := Int.ediv_add_emod d W
  have hr0 : 0 ≤ d % W := Int.emod_nonneg d (by omega)
  have hrW : d % W < W := Int.emod_lt_of_pos d hW
  have hq0 : 0 ≤ d / W := Int.ediv_nonneg (by omega) (by omega)
  rw [htd, htm]
  by_cases hrz : d % W = 0
  · simp only [hrz, ne_eq, not_true_eq_false, if_false, add_zero]
    refine ⟨hq0, ?_, ?_⟩
    · have h5 : (d / W) * W = W * (d / W) := mul_comm _ _
      linarith
    · intro j hj0 hjq
      have h1 : j ≤ d / W - 1 := by omega
      have h2 : j * W ≤ (d / W - 1) * W :=
        mul_le_mul_of_nonneg_right h1 (by omega)
      have h3 : (d / W - 1) * W = W * (d / W) - W := by ring
      linarith
  · simp only [hrz, ne_eq, not_false_eq_true, if_true]
    refine ⟨by omega, ?_, ?_⟩
    · have h3 : (d / W + 1) * W = W * (d / W) + W := by ring
      have hr1 : 0 < d % W := by omega
      linarith
    · intro j hj0 hjq
      have h1 : j ≤ d / W := by omega
      have h2 : j * W ≤ (d / W) * W :=
        mul_le_mul_of_nonneg_right h1 (by omega)
      have h3 : (d / W) * W = W * (d / W) := mul_comm _ _
      have hr1 : 0 < d % W := by omega
      linarith

/-- C3: without active segments, `get_info` reports no next break time for
Idle states and under flow mode; otherwise, for a state with a deadline,
the predicted next break time is the first candidate (`specFirstCandidate`)
advanced by the least number of whole base-work-length increments needed
to reach `specAllowFrom` — the pure-function embedding carries no state
mutation by construction. -/
theorem C3_next_break_time (s : TimerServiceState) (now : Int)
    (hseg : s.has_segments = false) :
    (s.phase = TimerPhase.Idle → (get_info s now).next_break_time = none) ∧
    (s.flow_mode = true → (get_info s now).next_break_time = none) ∧
    (s.flow_mode = false → s.phase ≠ TimerPhase.Idle →
      ∀ e, s.phase_end_time = some e →
        ∃ k : Nat,
          (get_info s now).next_break_time =
            some (specFirstCandidate s e + k * specBaseWorkLen s) ∧
          specAllowFrom s now ≤
            specFirstCandidate s e + k * specBaseWorkLen s ∧
          ∀ j : Nat, j < k →
            specFirstCandidate s e + j * specBaseWorkLen s <
              specAllowFrom s now) := by
  refine ⟨?_, ?_, ?_⟩
  · intro hphase
    cases hf : s.flow_mode <;>
      simp [get_info, hf, compute_next_break_time_from_state, hphase]
  · intro hflow
    simp [get_info, hflow]
  · intro hflow hphase e he
    have hW : 0 < specBaseWorkLen s := by
      unfold specBaseWorkLen
      omega
    have hcand :
        compute_next_break_time_from_state s now =
          some (if specFirstCandidate s e < specAllowFrom s now then
            specFirstCandidate s e +
              ((specAllowFrom s now - specFirstCandidate s e).tdiv
                  (specBaseWorkLen s) +
                (if (specAllowFrom s now - specFirstCandidate s e).tmod
                    (specBaseWorkLen s) ≠ 0 then 1 else 0)) *
                specBaseWorkLen s
          else specFirstCandidate s e) := by
      cases hp : s.phase with
      | Idle => exact absurd hp hphase
      | Work =>
          simp only [compute_next_break_time_from_state, hp, hseg,
            Bool.not_false, if_true, he, Option.getD_some,
            specFirstCandidate, specBaseWorkLen, specAllowFrom,
            reduceCtorEq, if_false]
      | Break =>
          simp only [compute_next_break_time_from_state, hp, hseg,
            Bool.not_false, if_true, he, Option.getD_some,
            specFirstCandidate, specBaseWorkLen, specAllowFrom,
            reduceCtorEq, if_false]
    rw [get_info]
    simp only [hflow, Bool.false_eq_true, if_false, hcand]
    by_cases hlt : specFirstCandidate s e < specAllowFrom s now
    · set d := specAllowFrom s now - specFirstCandidate s e with hd
      have hdpos : 0 < d := by omega
      obtain ⟨hk0, hkle, hkmin⟩ :=
        ceil_cycles_spec d (specBaseWorkLen s) hdpos hW
      set kI := d.tdiv (specBaseWorkLen s) +
        (if d.tmod (specBaseWorkLen s) ≠ 0 then 1 else 0) with hkI
      refine ⟨kI.toNat, ?_, ?_, ?_⟩
      · simp only [hlt, if_true]
        congr 1
        have : (kI.toNat : Int) = kI := by omega
        rw [this]
      · have : (kI.toNat : Int) = kI := by omega
        rw [this]
        linarith
      · intro j hj
        have hjI : (j : Int) < kI := by omega
        have := hkmin j (by omega) hjI
        linarith
    · refine ⟨0, ?_, ?_, ?_⟩
      · simp [hlt]
      · simp
        omega
      · intro j hj
        omega

/-- Witness for C3 at a Work state (deadline 1500) with suppression to
5000 and base work length 1500: the predictor must jump three work
lengths, to 6000. -/
theorem C3_next_break_time_witness :
    exampleSuppress5000.has_segments = false ∧
    ∃ k : Nat,
      (get_info exampleSuppress5000 0).next_break_time =
        some (specFirstCandidate exampleSuppress5000 1500 +
          k * specBaseWorkLen exampleSuppress5000) ∧
      specAllowFrom exampleSuppress5000 0 ≤
        specFirstCandidate exampleSuppress5000 1500 +
          k * specBaseWorkLen exampleSuppress5000 ∧
      ∀ j : Nat, j < k →
        specFirstCandidate exampleSuppress5000 1500 +
            j * specBaseWorkLen exampleSuppress5000 <
          specAllowFrom exampleSuppress5000 0 :=
  ⟨by decide,
   (C3_next_break_time exampleSuppress5000 0 (by decide)).2.2 (by decide)
     (by decide) 1500 (by decide)⟩

/-!
## Claim C9
-/


theorem Inv.mono {s : TimerServiceState} {t t' : Int} (h : Inv s t)
    (ht : t ≤ t') : Inv s t' := by
  refine ⟨h.1, fun e he => ?_⟩
  have := h.2 e he
  omega

theorem Inv_of_eq_fields {a b : TimerServiceState} {t : Int} (h : Inv a t)
    (hr : b.remaining_seconds = a.remaining_seconds)
    (htot : b.total_seconds = a.total_seconds)
    (he : b.phase_end_time = a.phase_end_time) : Inv b t := by
  refine ⟨?_, fun e hee => ?_⟩
  · rw [hr, htot]; exact h.1
  · rw [he] at hee
    rw [htot]
    exact h.2 e hee

theorem apply_frame (s : TimerServiceState) :
    s.apply_current_segment.remaining_seconds = s.remaining_seconds ∧
    s.apply_current_segment.total_seconds = s.total_seconds ∧
    s.apply_current_segment.phase_end_time = s.phase_end_time := by
  obtain ⟨w, b, h⟩ := apply_current_segment_spec s
  rw [h]
  exact ⟨rfl, rfl, rfl⟩

theorem Inv_start_work (s : TimerServiceState) (now : Int) (nid : Nat) :
    Inv (start_work s now nid) now := by
  rw [start_work_spec]
  refine ⟨le_refl _, fun e he => ?_⟩
  simp only [] at he
  simp only []
  injection he with he'
  omega

theorem Inv_start_break (s : TimerServiceState) (now : Int) (nid : Nat) :
    Inv (start_break s now nid) now := by
  rw [start_break_spec]
  refine ⟨le_refl _, fun e he => ?_⟩
  simp only [] at he ⊢
  injection he with he'
  omega

theorem Inv_stop (s : TimerServiceState) (t : Int) : Inv (stop s) t := by
  refine ⟨le_refl _, fun e he => ?_⟩
  simp [stop] at he

theorem Inv_pause {s : TimerServiceState} {t : Int} (h : Inv s t)
    (now : Int) (ht : t ≤ now) : Inv (pause s now) now := by
  unfold pause
  split
  · unfold update_remaining_seconds
    cases he : s.phase_end_time with
    | none =>
        refine ⟨h.1, fun e hee => ?_⟩
        simp at hee
    | some e =>
        have hbound := h.2 e he
        by_cases hge : now ≥ e
        · simp only [hge, if_true]
          refine ⟨Nat.zero_le _, fun e' he' => ?_⟩
          simp at he'
        · simp only [hge, if_false]
          refine ⟨?_, fun e' he' => ?_⟩
          · simp only []
            omega
          · simp at he'
  · exact h.mono ht

theorem Inv_resume {s : TimerServiceState} {t : Int} (h : Inv s t)
    (now : Int) (ht : t ≤ now) : Inv (resume s now) now := by
  unfold resume
  split
  · refine ⟨h.1, fun e he => ?_⟩
    have h1 := h.1
    simp only [] at he ⊢
    by_cases hr : s.remaining_seconds > 0
    · rw [if_pos hr] at he
      injection he with he'
      omega
    · rw [if_neg hr] at he
      injection he with he'
      omega
  · exact h.mono ht

theorem Inv_extend {s : TimerServiceState} {t : Int} (h : Inv s t)
    (minutes : Nat) : Inv (extend s minutes) t := by
  unfold extend
  refine ⟨?_, fun e he => ?_⟩
  · have := h.1
    simp only []
    omega
  · simp only [] at he ⊢
    cases hpe : s.phase_end_time with
    | none => rw [hpe] at he; simp at he
    | some e0 =>
        rw [hpe] at he
        simp only [Option.map_some'] at he
        injection he with he'
        have := h.2 e0 hpe
        omega

theorem update_timer_configuration_frame (s : TimerServiceState)
    (w b : Nat) (se : Bool) (segs : List WorkSegment) :
    (update_timer_configuration s w b se segs).remaining_seconds =
      s.remaining_seconds ∧
    (update_timer_configuration s w b se segs).total_seconds =
      s.total_seconds ∧
    (update_timer_configuration s w b se segs).phase_end_time =
      s.phase_end_time := by
  unfold update_timer_configuration
  refine ⟨?_, ?_, ?_⟩
  · rw [(apply_frame _).1]
    dsimp only
    split <;> (try split) <;> (try split) <;> rfl
  · rw [(apply_frame _).2.1]
    dsimp only
    split <;> (try split) <;> (try split) <;> rfl
  · rw [(apply_frame _).2.2]
    dsimp only
    split <;> (try split) <;> (try split) <;> rfl

theorem Inv_update_timer_configuration {s : TimerServiceState} {t : Int}
    (h : Inv s t) (w b : Nat) (se : Bool) (segs : List WorkSegment) :
    Inv (update_timer_configuration s w b se segs) t := by
  obtain ⟨h1, h2, h3⟩ := update_timer_configuration_frame s w b se segs
  exact Inv_of_eq_fields h h1 h2 h3

theorem Inv_skip (s : TimerServiceState) (t : Int) (h : Inv s t)
    (now : Int) (ht : t ≤ now) (fid nid : Nat) :
    Inv ((skip s now fid nid).1) now := by
  by_cases hp : s.phase = TimerPhase.Idle
  · simp only [skip, hp, if_true]
    exact h.mono ht
  · cases hpp : s.phase with
    | Idle => exact absurd hpp hp
    | Work =>
        simp only [skip, hpp, reduceCtorEq, if_false]
        exact Inv_start_break _ now nid
    | Break =>
        simp only [skip, hpp, reduceCtorEq, if_false]
        exact Inv_start_work _ now nid

theorem Inv_update_flow_mode {s : TimerServiceState} {t : Int}
    (h : Inv s t) (enabled : Bool) (now : Int) (ht : t ≤ now)
    (fid nid : Nat) :
    Inv ((update_flow_mode s enabled now fid nid).1) now := by
  unfold update_flow_mode
  split
  · exact h.mono ht
  · dsimp only
    have hx : Inv { s with flow_mode := enabled } t :=
      Inv_of_eq_fields h rfl rfl rfl
    split
    · exact Inv_skip _ _ hx now ht fid nid
    · exact hx.mono ht

theorem Inv_suppress_hours {s : TimerServiceState} {t : Int} (h : Inv s t)
    (now : Int) (ht : t ≤ now) (hours : Int) :
    Inv (suppress_breaks_for_hours s now hours) now :=
  (Inv_of_eq_fields h rfl rfl rfl).mono ht

theorem Inv_suppress_tomorrow {s : TimerServiceState} {t : Int}
    (h : Inv s t) (u : Int) :
    Inv (suppress_breaks_until_tomorrow_morning s u) t :=
  Inv_of_eq_fields h rfl rfl rfl

theorem Inv_handle_display {s : TimerServiceState} {t : Int} (h : Inv s t)
    (d : Bool) (now : Int) (ht : t ≤ now) :
    Inv (handle_display_power_state s d now) now := by
  unfold handle_display_power_state
  have hoff : Inv { s with paused_due_to_display_off := false } t :=
    Inv_of_eq_fields h rfl rfl rfl
  have hon : Inv { s with paused_due_to_display_off := true } t :=
    Inv_of_eq_fields h rfl rfl rfl
  split
  · split
    · exact Inv_resume hoff now ht
    · exact hoff.mono ht
  · split
    · exact Inv_pause hon now ht
    · exact h.mono ht

theorem Inv_handle_suspend {s : TimerServiceState} {t : Int} (h : Inv s t)
    (now : Int) (ht : t ≤ now) :
    Inv (handle_system_suspend s now) now := by
  unfold handle_system_suspend
  have hx : Inv { s with paused_due_to_system_suspend := true } t :=
    Inv_of_eq_fields h rfl rfl rfl
  split
  · exact Inv_pause hx now ht
  · exact h.mono ht

theorem Inv_handle_resume {s : TimerServiceState} {t : Int} (h : Inv s t)
    (now : Int) (ht : t ≤ now) :
    Inv (handle_system_resume s now) now := by
  unfold handle_system_resume
  have hx : Inv { s with paused_due_to_system_suspend := false } t :=
    Inv_of_eq_fields h rfl rfl rfl
  split
  · exact Inv_resume hx now ht
  · exact hx.mono ht

theorem Inv_tick (s : TimerServiceState) (t : Int) (h : Inv s t)
    (now : Int) (ht : t ≤ now) (fid nid : Nat) :
    Inv ((tick s now fid nid).1) now := by
  by_cases hrs : s.state = TimerState.Running
  case neg =>
    simp only [tick, ne_eq, hrs, not_false_eq_true, if_true]
    exact h.mono ht
  case pos =>
    cases he : s.phase_end_time with
    | none =>
        cases hsup : s.suppress_breaks_until with
        | none =>
            simp only [tick, ne_eq, hrs, not_true_eq_false, if_false, he,
              hsup, Bool.false_and, Bool.and_false, if_neg]
            simp
            exact h.mono ht
        | some u =>
            by_cases hu : now < u
            · simp [tick, hrs, he, hsup, hu]
              exact h.mono ht
            · simp [tick, hrs, he, hsup, hu]
              exact Inv_of_eq_fields (h.mono ht) rfl rfl he.symm
    | some e =>
        by_cases hge : now ≥ e
        · have hfin : Inv
              { s with remaining_seconds := 0, phase_end_time := none }
              now := by
            refine ⟨Nat.zero_le _, fun e' he' => ?_⟩
            simp at he'
          cases hauto : s.auto_cycle with
          | false =>
              cases hsup : s.suppress_breaks_until with
              | none =>
                  simp [tick, hrs, he, hge, hsup, hauto]
                  exact hfin
              | some u =>
                  by_cases hu : now < u
                  · simp [tick, hrs, he, hge, hsup, hu, hauto]
                    exact hfin
                  · simp [tick, hrs, he, hge, hsup, hu, hauto]
                    exact Inv_of_eq_fields hfin rfl rfl rfl
          | true =>
              cases hp : s.phase with
              | Idle =>
                  cases hsup : s.suppress_breaks_until with
                  | none =>
                      simp [tick, hrs, he, hge, hsup, hauto, hp]
                      exact hfin
                  | some u =>
                      by_cases hu : now < u
                      · simp [tick, hrs, he, hge, hsup, hu, hauto, hp]
                        exact hfin
                      · simp [tick, hrs, he, hge, hsup, hu, hauto, hp]
                        exact Inv_of_eq_fields hfin rfl rfl rfl
              | Break =>
                  cases hsup : s.suppress_breaks_until with
                  | none =>
                      simp [tick, hrs, he, hge, hsup, hauto, hp]
                      exact Inv_start_work _ now nid
                  | some u =>
                      by_cases hu : now < u
                      · simp [tick, hrs, he, hge, hsup, hu, hauto, hp]
                        exact Inv_start_work _ now nid
                      · simp [tick, hrs, he, hge, hsup, hu, hauto, hp]
                        exact Inv_start_work _ now nid
              | Work =>
                  cases hflow : s.flow_mode with
                  | true =>
                      cases hsup : s.suppress_breaks_until with
                      | none =>
                          simp [tick, hrs, he, hge, hsup, hauto, hp, hflow]
                          exact Inv_start_work _ now nid
                      | some u =>
                          by_cases hu : now < u
                          · simp [tick, hrs, he, hge, hsup, hu, hauto, hp,
                              hflow]
                            exact Inv_start_work _ now nid
                          · simp [tick, hrs, he, hge, hsup, hu, hauto, hp,
                              hflow]
                            exact Inv_start_work _ now nid
                  | false =>
                      cases hsup : s.suppress_breaks_until with
                      | none =>
                          simp [tick, hrs, he, hge, hsup, hauto, hp, hflow]
                          exact Inv_start_break _ now nid
                      | some u =>
                          by_cases hu : now < u
                          · simp [tick, hrs, he, hge, hsup, hu, hauto, hp,
                              hflow]
                            exact Inv_start_work _ now nid
                          · simp [tick, hrs, he, hge, hsup, hu, hauto, hp,
                              hflow]
                            exact Inv_start_break _ now nid
        · have hbound := h.2 e he
          have h1 := h.1
          cases hsup : s.suppress_breaks_until with
          | none =>
              simp [tick, hrs, he, hge, hsup]
              refine ⟨?_, fun e' he' => ?_⟩
              · simp only []
                omega
              · simp only [] at he'
                injection he' with he''
                subst he''
                simp only []
                omega
          | some u =>
              by_cases hu : now < u
              · simp [tick, hrs, he, hge, hsup, hu]
                refine ⟨?_, fun e' he' => ?_⟩
                · simp only []
                  omega
                · simp only [] at he'
                  injection he' with he''
                  subst he''
                  simp only []
                  omega
              · simp [tick, hrs, he, hge, hsup, hu]
                refine ⟨?_, fun e' he' => ?_⟩
                · simp only []
                  omega
                · simp only [] at he'
                  injection he' with he''
                  subst he''
                  simp only []
                  omega

theorem Inv_new (w b : Nat) (f se : Bool) (segs : List WorkSegment)
    (t : Int) : Inv (TimerService.new w b f se segs) t := by
  unfold TimerService.new TimerServiceState.reset_segment_progress
  refine ⟨?_, fun e he => ?_⟩
  · rw [(apply_frame _).1, (apply_frame _).2.1]
  · rw [(apply_frame _).2.2] at he
    simp at he

theorem execCommand_inv {s : TimerServiceState} {t : Int} (h : Inv s t)
    (c : Command) :
    (∀ n, commandTime c = some n → t ≤ n → Inv (execCommand s c) n) ∧
    (commandTime c = none → Inv (execCommand s c) t) := by
  cases c with
  | start_work now nid =>
      refine ⟨fun n hn htn => ?_, fun hn => by simp [commandTime] at hn⟩
      injection hn with hn'
      subst hn'
      exact Inv_start_work s now nid
  | start_break now nid =>
      refine ⟨fun n hn htn => ?_, fun hn => by simp [commandTime] at hn⟩
      injection hn with hn'
      subst hn'
      exact Inv_start_break s now nid
  | pause now =>
      refine ⟨fun n hn htn => ?_, fun hn => by simp [commandTime] at hn⟩
      injection hn with hn'
      subst hn'
      exact Inv_pause h now htn
  | resume now =>
      refine ⟨fun n hn htn => ?_, fun hn => by simp [commandTime] at hn⟩
      injection hn with hn'
      subst hn'
      exact Inv_resume h now htn
  | skip now fid nid =>
      refine ⟨fun n hn htn => ?_, fun hn => by simp [commandTime] at hn⟩
      injection hn with hn'
      subst hn'
      exact Inv_skip s t h now htn fid nid
  | extend minutes =>
      exact ⟨fun n hn => by simp [commandTime] at hn,
        fun _ => Inv_extend h minutes⟩
  | stop =>
      exact ⟨fun n hn => by simp [commandTime] at hn,
        fun _ => Inv_stop s t⟩
  | tick now fid nid =>
      refine ⟨fun n hn htn => ?_, fun hn => by simp [commandTime] at hn⟩
      injection hn with hn'
      subst hn'
      exact Inv_tick s t h now htn fid nid
  | update_timer_configuration w b se segs =>
      exact ⟨fun n hn => by simp [commandTime] at hn,
        fun _ => Inv_update_timer_configuration h w b se segs⟩
  | update_flow_mode enabled now fid nid =>
      refine ⟨fun n hn htn => ?_, fun hn => by simp [commandTime] at hn⟩
      injection hn with hn'
      subst hn'
      exact Inv_update_flow_mode h enabled now htn fid nid
  | suppress_breaks_for_hours now hours =>
      refine ⟨fun n hn htn => ?_, fun hn => by simp [commandTime] at hn⟩
      injection hn with hn'
      subst hn'
      exact Inv_suppress_hours h now htn hours
  | suppress_breaks_until_tomorrow_morning u =>
      exact ⟨fun n hn => by simp [commandTime] at hn,
        fun _ => Inv_suppress_tomorrow h u⟩
  | handle_display_power_state d now =>
      refine ⟨fun n hn htn => ?_, fun hn => by simp [commandTime] at hn⟩
      injection hn with hn'
      subst hn'
      exact Inv_handle_display h d now htn
  | handle_system_suspend now =>
      refine ⟨fun n hn htn => ?_, fun hn => by simp [commandTime] at hn⟩
      injection hn with hn'
      subst hn'
      exact Inv_handle_suspend h now htn
  | handle_system_resume now =>
      refine ⟨fun n hn htn => ?_, fun hn => by simp [commandTime] at hn⟩
      injection hn with hn'
      subst hn'
      exact Inv_handle_resume h now htn

theorem run_inv (cs : List Command) :
    ∀ (s : TimerServiceState) (t : Int), Inv s t →
      Chronological t cs = true → ∃ t', Inv (run s cs) t' := by
  induction cs with
  | nil => exact fun s t h _ => ⟨t, h⟩
  | cons c cs ih =>
      intro s t h hch
      unfold Chronological at hch
      cases hc : commandTime c with
      | some n =>
          rw [hc] at hch
          simp only [Bool.and_eq_true, decide_eq_true_eq] at hch
          obtain ⟨htn, hch'⟩ := hch
          exact ih _ _ ((execCommand_inv h c).1 n hc htn) hch'
      | none =>
          rw [hc] at hch
          exact ih _ _ ((execCommand_inv h c).2 hc) hch

/-- C9: starting from a freshly constructed engine, any sequence of engine
commands whose wall-clock reads are nondecreasing leaves the state with
`0 ≤ remaining_seconds ≤ total_seconds` (the lower bound is inherent to
the unsigned counter). -/
theorem C9_remaining_le_total (work_duration break_duration : Nat)
    (flow_mode segmented_enabled : Bool) (segments : List WorkSegment)
    (t0 : Int) (cs : List Command)
    (hch : Chronological t0 cs = true) :
    0 ≤ (run (TimerService.new work_duration break_duration flow_mode
          segmented_enabled segments) cs).remaining_seconds ∧
    (run (TimerService.new work_duration break_duration flow_mode
          segmented_enabled segments) cs).remaining_seconds ≤
      (run (TimerService.new work_duration break_duration flow_mode
          segmented_enabled segments) cs).total_seconds := by
  obtain ⟨t', h⟩ := run_inv cs _ t0
    (Inv_new work_duration break_duration flow_mode segmented_enabled
      segments t0) hch
  exact ⟨Nat.zero_le _, h.1⟩

theorem C9_remaining_le_total_witness :
    Chronological 0 exampleScript = true ∧
    (0 ≤ (run (TimerService.new 25 5 false false []) exampleScript
            ).remaining_seconds ∧
     (run (TimerService.new 25 5 false false [])
          exampleScript).remaining_seconds ≤
       (run (TimerService.new 25 5 false false [])
          exampleScript).total_seconds) :=
  ⟨by decide, C9_remaining_le_total 25 5 false false [] 0 exampleScript
    (by decide)⟩

end Resty
